import Mathlib

/-!
Verification of the internoti delivery pipeline.

Shallow embedding of the core components of the repository:
  * `MessageStore` (dedup store backed by a sqlite table with
    `message_id` as primary key; `REPLACE INTO` upsert semantics),
  * `QueueManager.queueMessage` / `QueueManager.processQueue` /
    `QueueManager.sendNotification` (FIFO delivery queue with retry,
    rate-limit backoff and dedup),
  * `MessageFormatter` (MarkdownV2 formatting and notification-type
    extraction) together with the sanitizer,
  * `DirectWebhookServer.handleWebhook` and
    `IntercomClient.processWebhookEvent` (event normalization).

Strings are Lean `String`s (lists of unicode code points, matching
JavaScript's semantics under the `u` regex flag for the characters in
play).  Machine integers do not occur; all numbers are `Nat`
timestamps/counters.  The sqlite table is a list of rows.  The
JavaScript event loop is modelled by running the drain loop (`while`
loop of `processQueue`) as a fuel-indexed recursive function; `await`
delays advance an explicit clock `now` by the delay amount, and the
outcome of each `bot.sendMessage` call is given by an oracle
`send : Nat → SendResult` indexed by the number of send calls made so
far.
-/

/-! ### Configuration (src/config/telegram.ts) -/

def MAX_RETRIES : Nat := 3

def RETRY_DELAY : Nat := 1000

def QUEUE_CHECK_INTERVAL : Nat := 1000

/-! ### String helpers (JavaScript `String.prototype.includes` and the
regular-expression scans used by the queue) -/

/-- Prefix test: `hasPrefixChars p s` is true iff the char list `p` is a prefix of `s`. -/
def hasPrefixChars : List Char → List Char → Bool
  | [], _ => true
  | _ :: _, [] => false
  | p :: ps, c :: cs => p == c && hasPrefixChars ps cs

/-- Substring containment on char lists (JS `includes`). -/
def containsChars (pat : List Char) : List Char → Bool
  | [] => hasPrefixChars pat []
  | c :: cs => hasPrefixChars pat (c :: cs) || containsChars pat cs

/-- JS `s.includes(pat)`. -/
def strIncludes (s pat : String) : Bool :=
  containsChars pat.data s.data

/-- Numeric value of a maximal run of leading decimal digits. -/
def digitsToNat (ds : List Char) : Nat :=
  ds.foldl (fun acc c => acc * 10 + (c.toNat - 48)) 0

/-- Scan for the first occurrence of the regex `retry after (\d+)`:
at each position the literal `retry after ` must be followed by at
least one digit; the captured group is the maximal digit run
(`parseInt(..., 10)`). -/
def retryAfterScan : List Char → Option Nat
  | [] => none
  | c :: cs =>
      let pat := "retry after ".data
      if hasPrefixChars pat (c :: cs) then
        match ((c :: cs).drop pat.length).takeWhile Char.isDigit with
        | [] => retryAfterScan cs
        | ds => some (digitsToNat ds)
      else retryAfterScan cs

/-- Embedding of `error.message.match(/retry after (\d+)/)`, returning the parsed seconds. -/
def retryAfterSecs (e : String) : Option Nat :=
  retryAfterScan e.data

/-- The apostrophe character, kept out of string literals. -/
def aposChar : Char := Char.ofNat 39

/-- The literal `Bad Request: can't parse entities` tested by
`processQueue` via `error.message.includes(...)`. -/
def parseEntitiesPat : String :=
  "Bad Request: can" ++ String.mk [aposChar] ++ "t parse entities"

/-! ### Dedup store (src/db/messageStore.ts, `MessageStore`)

One row of the `sent_messages` table (`message_id` TEXT PRIMARY KEY,
`timestamp` INTEGER, `conversation_id` TEXT nullable, `message_type`
TEXT). -/

structure DedupRecord where
  message_id : String
  timestamp : Nat
  conversation_id : Option String
  message_type : String
deriving DecidableEq, Repr

/-- The `sent_messages` table. -/
abbrev Store := List DedupRecord

/-- Embedding of `MessageStore.hasBeenSent`: `SELECT 1 FROM sent_messages WHERE
message_id = ?` followed by a defined-ness test. -/
def hasBeenSent (store : Store) (messageId : String) : Bool :=
  store.any (fun r => r.message_id == messageId)

/-- Embedding of `MessageStore.markAsSent`: `REPLACE INTO sent_messages ... VALUES
(?, Date.now(), ?, ?)`.  sqlite `REPLACE` deletes any row with the same
primary key and inserts the new row. -/
def markAsSent (store : Store) (messageId : String)
    (conversationId : Option String) (messageType : String) (now : Nat) : Store :=
  store.filter (fun r => r.message_id != messageId) ++
    [⟨messageId, now, conversationId, messageType⟩]

/-- Embedding of `MessageStore.cleanupOldMessages`: `DELETE FROM sent_messages WHERE
timestamp < ?` with cutoff `Date.now() - CLEANUP_INTERVAL`. -/
def cleanupOldMessages (store : Store) (now : Nat) : Store :=
  let cutoffTime := now - 7 * 24 * 60 * 60 * 1000
  store.filter (fun r => !(r.timestamp < cutoffTime))

section StoreLemmas

theorem hasBeenSent_markAsSent (store : Store) (id : String)
    (cid : Option String) (mt : String) (now : Nat) :
    hasBeenSent (markAsSent store id cid mt now) id = true := by
  simp [hasBeenSent, markAsSent, List.any_append]

theorem markAsSent_filter_self (store : Store) (id : String)
    (cid : Option String) (mt : String) (now : Nat) :
    (markAsSent store id cid mt now).filter (fun r => r.message_id == id) =
      [⟨id, now, cid, mt⟩] := by
  simp only [markAsSent, List.filter_append]
  rw [List.filter_filter]
  simp

end StoreLemmas

/-- Claim C8: `markAsSent` is idempotent: marking the same `messageId`
twice (with any conversation ids, message types and timestamps) raises
no error (it is a total function), leaves exactly one dedup record for
that `messageId` in the store, and `hasBeenSent` answers true
afterwards. -/
theorem markAsSent_idempotent (store : Store) (id : String)
    (cid₁ cid₂ : Option String) (mt₁ mt₂ : String) (t₁ t₂ : Nat) :
    ((markAsSent (markAsSent store id cid₁ mt₁ t₁) id cid₂ mt₂ t₂).filter
        (fun r => r.message_id == id)).length = 1 ∧
    hasBeenSent (markAsSent (markAsSent store id cid₁ mt₁ t₁) id cid₂ mt₂ t₂) id = true := by
  refine ⟨?_, hasBeenSent_markAsSent _ _ _ _ _⟩
  rw [markAsSent_filter_self]
  rfl

/-! ### Message formatting (src/bot/messageFormatter.ts, src/utils/sanitizer.ts)

The variant of `MessageFormatter` referenced by the claims is the one
whose `formatMessage` renders `🟣/🔵 <icon> *<TYPE WITH SPACES>*` as its
first line and whose `extractNotificationType` matches
`/[🟣🔵] [💬🆕🤖] \*(NEW[ _]CONVERSATION|NEW[ _]MESSAGE|SYSTEM)\*/u`. -/

inductive UserType where
  | user
  | contact
  | admin
  | lead
deriving DecidableEq, Repr

inductive NotificationType where
  | NEW_CONVERSATION
  | NEW_MESSAGE
  | SYSTEM
deriving DecidableEq, Repr

/-- The string value of the `NotificationType` enum member. -/
def NotificationType.toStr : NotificationType → String
  | .NEW_CONVERSATION => "NEW_CONVERSATION"
  | .NEW_MESSAGE => "NEW_MESSAGE"
  | .SYSTEM => "SYSTEM"

/-- Embedding of `ChatMessage` (src/types/telegram.ts); `conversationId` is the
optional `metadata?.conversationId`. -/
structure ChatMessage where
  id : String
  name : String
  userId : Option String
  email : Option String
  type : UserType
  message : String
  timestamp : String
  conversationId : Option String
deriving DecidableEq, Repr

/-- Embedding of `FormattedMessage` (src/types/telegram.ts): rendered text plus the
single inline-keyboard button URL of `reply_markup`. -/
structure FormattedMessage where
  text : String
  replyMarkupUrl : Option String
deriving DecidableEq, Repr

/-- Whitespace for the JS `\s` class (the subset that can occur here). -/
def isWsChar (c : Char) : Bool :=
  c == ' ' || c == '\t' || c == '\n' || c == '\r' ||
    c.toNat == 11 || c.toNat == 12 || c.toNat == 160

/-- Fuel-indexed engine for `String.prototype.replace` with a global
plain-string pattern.  Each step consumes at least one input character,
so fuel `s.length` suffices and the function agrees with the JS
behaviour. -/
def replaceAllFuel : Nat → List Char → List Char → List Char → List Char
  | 0, _, _, s => s
  | fuel + 1, pat, repl, s =>
      match s with
      | [] => []
      | c :: cs =>
          if hasPrefixChars pat (c :: cs) && !pat.isEmpty then
            repl ++ replaceAllFuel fuel pat repl ((c :: cs).drop pat.length)
          else c :: replaceAllFuel fuel pat repl cs

/-- Embedding of `s.replace(/pat/g, repl)` for a literal pattern `pat`. -/
def replaceAll (pat repl s : String) : String :=
  String.mk (replaceAllFuel s.data.length pat.data repl.data s.data)

/-- Fuel-indexed engine for `.replace(/<[^>]*>/g, '')`: a `<` with a
later `>` is removed together with everything up to that `>`; a `<`
with no closing `>` stays (the regex cannot match it). -/
def stripTagsFuel : Nat → List Char → List Char
  | 0, s => s
  | fuel + 1, s =>
      match s with
      | [] => []
      | c :: cs =>
          if c == '<' then
            match cs.dropWhile (fun d => d != '>') with
            | _ :: rest => stripTagsFuel fuel rest
            | [] => c :: stripTagsFuel fuel cs
          else c :: stripTagsFuel fuel cs

/-- Fuel-indexed engine for `.replace(/\s+/g, ' ')`. -/
def collapseWsFuel : Nat → List Char → List Char
  | 0, s => s
  | fuel + 1, s =>
      match s with
      | [] => []
      | c :: cs =>
          if isWsChar c then ' ' :: collapseWsFuel fuel (cs.dropWhile isWsChar)
          else c :: collapseWsFuel fuel cs

/-- JS `String.prototype.trim`. -/
def jsTrim (s : List Char) : List Char :=
  ((s.dropWhile isWsChar).reverse.dropWhile isWsChar).reverse

/-- Embedding of `sanitizeText` (src/utils/sanitizer.ts): strip HTML tags, decode the
five HTML entities, trim, normalize whitespace runs to single spaces. -/
def sanitizeText (text : String) : String :=
  let a := String.mk (stripTagsFuel text.data.length text.data)
  let b := replaceAll "&amp;" "&" a
  let c := replaceAll "&lt;" "<" b
  let d := replaceAll "&gt;" ">" c
  let e := replaceAll "&quot;" "\"" d
  let f := replaceAll "&#39;" (String.mk [aposChar]) e
  String.mk (collapseWsFuel (jsTrim f.data).length (jsTrim f.data))

/-- Embedding of `cleanMessageContent` (src/utils/sanitizer.ts): sanitize, trim, and
truncate to 3000 characters with a `...` marker. -/
def cleanMessageContent (message : String) : String :=
  let cleanMessage := String.mk (jsTrim (sanitizeText message).data)
  if 3000 < cleanMessage.data.length then
    String.mk (cleanMessage.data.take 3000) ++ "..."
  else cleanMessage

/-- The result of `formatTimestamp` (locale/time dependent; the claims
quantify over it). -/
structure FormattedTimestamp where
  formatted : String
  timeAgo : String
deriving DecidableEq, Repr

/-- Embedding of `SanitizedPayload` (src/utils/sanitizer.ts). -/
structure SanitizedPayload where
  userName : String
  messageBody : String
  timestamp : FormattedTimestamp
  inboxUrl : String
  rawId : String
  rawType : UserType
deriving DecidableEq, Repr

/-- Embedding of `sanitizeIntercomMessage` (src/utils/sanitizer.ts).  `fmtTs`
abstracts `formatTimestamp`, whose output depends on the host locale
and wall clock. -/
def sanitizeIntercomMessage (fmtTs : String → FormattedTimestamp)
    (raw : ChatMessage) : SanitizedPayload :=
  { userName := sanitizeText raw.name
    messageBody := cleanMessageContent raw.message
    timestamp := fmtTs raw.timestamp
    inboxUrl := "https://app.intercom.com/a/inbox/" ++ raw.id
    rawId := raw.id
    rawType := raw.type }

/-- The characters escaped by `escapeMarkdown`
(`/[_*[\]()~`>#+=|{}.!-]/g`); backtick and braces are written by code
point. -/
def escapeSet : List Char :=
  ['_', '*', '[', ']', '(', ')', '~', Char.ofNat 96, '>', '#', '+', '=',
    '|', Char.ofNat 123, Char.ofNat 125, '.', '!', '-']

/-- Embedding of `MessageFormatter.escapeMarkdown`: prefix every special character
with a backslash. -/
def escapeMarkdown (text : String) : String :=
  String.mk (text.data.flatMap (fun c => if c ∈ escapeSet then ['\\', c] else [c]))

/-- Embedding of `TELEGRAM_CONFIG.ICONS[type]` (total, so the `|| ICONS.SYSTEM`
fallback never fires). -/
def getNotificationIcon : NotificationType → String
  | .NEW_CONVERSATION => "🆕"
  | .NEW_MESSAGE => "💬"
  | .SYSTEM => "🤖"

/-- JS `Array.prototype.join('\n')`. -/
def joinLines : List String → String
  | [] => ""
  | [s] => s
  | s :: rest => s ++ "\n" ++ joinLines rest

/-- Embedding of `MessageFormatter.formatMessage` (the claims variant): renders the
colored header line, the time line, and the name/message blocks, and
attaches the inbox-URL button.  `colorMark` is the source's color
prefix marker (🟣 for new conversations, 🔵 otherwise). -/
def formatMessage (fmtTs : String → FormattedTimestamp)
    (chat : ChatMessage) (notificationType : NotificationType) : FormattedMessage :=
  let sanitized := sanitizeIntercomMessage fmtTs chat
  let icon := escapeMarkdown (getNotificationIcon notificationType)
  let typeStr := escapeMarkdown (replaceAll "_" " " notificationType.toStr)
  let userName := escapeMarkdown sanitized.userName
  let messageBody := escapeMarkdown sanitized.messageBody
  let formattedTime := escapeMarkdown sanitized.timestamp.formatted
  let timeAgo := escapeMarkdown sanitized.timestamp.timeAgo
  let colorMark := if notificationType = NotificationType.NEW_CONVERSATION
    then "🟣" else "🔵"
  { text := joinLines [
      colorMark ++ " " ++ icon ++ " *" ++ typeStr ++ "*",
      "_" ++ formattedTime ++ " \\(" ++ timeAgo ++ "\\)_",
      "",
      "*Name:*",
      userName,
      "",
      "*Message:*",
      messageBody],
    replyMarkupUrl := some sanitized.inboxUrl }

/-- Embedding of `MessageFormatter.determineNotificationType`. -/
def determineNotificationType (userType : UserType) : NotificationType :=
  if userType = UserType.contact ∨ userType = UserType.lead then
    NotificationType.NEW_CONVERSATION
  else NotificationType.NEW_MESSAGE

/-- Character class `[🟣🔵]`. -/
def isColorChar (c : Char) : Bool := c == '🟣' || c == '🔵'

/-- Character class `[💬🆕🤖]`. -/
def isIconChar (c : Char) : Bool := c == '💬' || c == '🆕' || c == '🤖'

/-- Character class `[ _]`. -/
def sepChar (c : Char) : Bool := c == ' ' || c == '_'

/-- Strip an exact literal from the front of a char list. -/
def stripLit : List Char → List Char → Option (List Char)
  | [], cs => some cs
  | _ :: _, [] => none
  | p :: ps, c :: cs => if p == c then stripLit ps cs else none

/-- The `SYSTEM\*` alternative of the extraction regex. -/
def matchSystemStar (cs : List Char) : Option String :=
  match stripLit "SYSTEM".data cs with
  | some ('*' :: _) => some "SYSTEM"
  | _ => none

/-- The `(NEW[ _]CONVERSATION|NEW[ _]MESSAGE|SYSTEM)\*` tail of the
extraction regex, with the captured group already normalized by
`match[1].replace(/[ _]/g, '_')`.  Alternatives are tried left to
right with backtracking, exactly as the JS engine does. -/
def matchTypeStar (cs : List Char) : Option String :=
  match stripLit "NEW".data cs with
  | some (c :: cs1) =>
      if sepChar c then
        match stripLit "CONVERSATION".data cs1 with
        | some ('*' :: _) => some "NEW_CONVERSATION"
        | _ =>
            match stripLit "MESSAGE".data cs1 with
            | some ('*' :: _) => some "NEW_MESSAGE"
            | _ => matchSystemStar cs
      else matchSystemStar cs
  | _ => matchSystemStar cs

/-- Attempt the full pattern
`[🟣🔵] [💬🆕🤖] \*(NEW[ _]CONVERSATION|NEW[ _]MESSAGE|SYSTEM)\*`
at the current position. -/
def matchHeaderAt : List Char → Option String
  | c0 :: c1 :: c2 :: c3 :: c4 :: rest =>
      if isColorChar c0 && c1 == ' ' && isIconChar c2 && c3 == ' ' && c4 == '*' then
        matchTypeStar rest
      else none
  | _ => none

/-- Left-to-right scan of `String.prototype.match` (first match wins). -/
def extractScan : List Char → Option String
  | [] => none
  | c :: cs =>
      match matchHeaderAt (c :: cs) with
      | some t => some t
      | none => extractScan cs

/-- Embedding of `MessageFormatter.extractNotificationType`: the enum value of the
first regex match, or `UNKNOWN`. -/
def extractNotificationType (message : String) : String :=
  (extractScan message.data).getD "UNKNOWN"

/-! ### Delivery queue (src/bot/queueManager.ts, `QueueManager`)

The claims' variant takes a `FormattedMessage` plus the originating
`ChatMessage`, consults the dedup store on enqueue, and marks a message
as sent right after `bot.sendMessage` succeeds. -/

/-- Embedding of `QueueItem` (src/types/telegram.ts). -/
structure QueueItem where
  message : FormattedMessage
  messageId : String
  conversationId : Option String
  retryCount : Nat
  retryAfter : Option Nat
  notificationType : String
deriving DecidableEq, Repr

/-- Outcome of one `bot.sendMessage` call: success, or a rejection with
the error message string inspected by `processQueue`. -/
inductive SendResult where
  | ok
  | error (msg : String)
deriving DecidableEq, Repr

/-- Observable actions of the queue, with the clock value at which they
happen and (for attempts) the `retryCount` the entry carries when the
send is attempted. -/
inductive Event where
  | attempt (messageId : String) (time : Nat) (retryCount : Nat)
  | delivered (messageId : String) (time : Nat)
  | droppedFormat (messageId : String) (time : Nat)
  | droppedRetries (messageId : String) (time : Nat)
deriving DecidableEq, Repr

/-- The clock value of an event. -/
def Event.time : Event → Nat
  | .attempt _ t _ => t
  | .delivered _ t => t
  | .droppedFormat _ t => t
  | .droppedRetries _ t => t

/-- The message ids of the send attempts in a trace, in order. -/
def attemptsOf (evs : List Event) : List String :=
  evs.filterMap (fun e => match e with
    | .attempt id _ _ => some id
    | _ => none)

/-- Mutable state of a `QueueManager` paired with the store singleton
and the clock: `messageQueue`, the sqlite store, and `Date.now()`. -/
structure SysState where
  queue : List QueueItem
  store : Store
  now : Nat
deriving DecidableEq, Repr

/-- Result of running the drain loop: final state, emitted events, and
the number of `bot.sendMessage` calls made so far (index into the send
oracle). -/
structure LoopResult where
  state : SysState
  events : List Event
  calls : Nat
deriving DecidableEq, Repr

/-- Embedding of `item.retryAfter && item.retryAfter > Date.now()`. -/
def blockedHead (item : QueueItem) (now : Nat) : Bool :=
  match item.retryAfter with
  | some d => decide (now < d)
  | none => false

/-- The ternary chain in `sendNotification`'s `markAsSent` call. -/
def normType (nt : String) : String :=
  if nt == "NEW_CONVERSATION" then "NEW_CONVERSATION"
  else if nt == "NEW_MESSAGE" then "NEW_MESSAGE"
  else "SYSTEM"

/-- The `while` loop of `QueueManager.processQueue`, one constructor
case per branch of the loop body:

* head blocked by `retryAfter` → stop (the scheduled wake-up re-runs
  the loop later);
* send succeeds (`sendNotification` returns): `markAsSent`, `shift()`,
  await `RETRY_DELAY`, continue;
* error containing `ETELEGRAM: 429` with a parsable `retry after n`:
  set `retryAfter = now + n*1000` on the head (retryCount untouched),
  `break`;
* error containing `ETELEGRAM: 429` without a parsable duration: no
  state change at all, the loop continues;
* error containing the parse-entities marker: `shift()`, continue;
* any other error: `retryCount++`; drop the head if
  `retryCount >= MAX_RETRIES`, else leave it at the head; continue. -/
def processQueue : Nat → (Nat → SendResult) → Nat → SysState → LoopResult
  | 0, _, k, st => ⟨st, [], k⟩
  | fuel + 1, send, k, st =>
      match st.queue with
      | [] => ⟨st, [], k⟩
      | item :: rest =>
          if blockedHead item st.now then ⟨st, [], k⟩
          else
            match send k with
            | .ok =>
                let store' := markAsSent st.store item.messageId item.conversationId
                  (normType item.notificationType) st.now
                let r := processQueue fuel send (k + 1) ⟨rest, store', st.now + RETRY_DELAY⟩
                ⟨r.state,
                  .attempt item.messageId st.now item.retryCount ::
                    .delivered item.messageId st.now :: r.events,
                  r.calls⟩
            | .error e =>
                if strIncludes e "ETELEGRAM: 429" then
                  match retryAfterSecs e with
                  | some s =>
                      ⟨⟨{ item with retryAfter := some (st.now + s * 1000) } :: rest,
                          st.store, st.now⟩,
                        [.attempt item.messageId st.now item.retryCount], k + 1⟩
                  | none =>
                      let r := processQueue fuel send (k + 1) st
                      ⟨r.state, .attempt item.messageId st.now item.retryCount :: r.events,
                        r.calls⟩
                else if strIncludes e parseEntitiesPat then
                  let r := processQueue fuel send (k + 1) ⟨rest, st.store, st.now⟩
                  ⟨r.state,
                    .attempt item.messageId st.now item.retryCount ::
                      .droppedFormat item.messageId st.now :: r.events,
                    r.calls⟩
                else
                  if MAX_RETRIES ≤ item.retryCount + 1 then
                    let r := processQueue fuel send (k + 1) ⟨rest, st.store, st.now⟩
                    ⟨r.state,
                      .attempt item.messageId st.now item.retryCount ::
                        .droppedRetries item.messageId st.now :: r.events,
                      r.calls⟩
                  else
                    let r := processQueue fuel send (k + 1)
                      ⟨{ item with retryCount := item.retryCount + 1 } :: rest, st.store, st.now⟩
                    ⟨r.state, .attempt item.messageId st.now item.retryCount :: r.events,
                      r.calls⟩

/-- The `QueueItem` pushed by `queueMessage`. -/
def mkQueueItem (fm : FormattedMessage) (cm : ChatMessage) (nt : String) : QueueItem :=
  { message := fm
    messageId := cm.id
    conversationId := cm.conversationId
    retryCount := 0
    retryAfter := none
    notificationType := nt }

/-- Embedding of `QueueManager.queueMessage`: extract the notification type from the
rendered text, skip silently when `hasBeenSent`, otherwise push at the
tail and (the `processingQueue` flag being false between turns) drain. -/
def queueMessage (fuel : Nat) (send : Nat → SendResult) (k : Nat) (st : SysState)
    (fm : FormattedMessage) (cm : ChatMessage) : LoopResult :=
  let nt := extractNotificationType fm.text
  if hasBeenSent st.store cm.id then ⟨st, [], k⟩
  else processQueue fuel send k ⟨st.queue ++ [mkQueueItem fm cm nt], st.store, st.now⟩

/-- External triggers of the queue: an enqueue (webhook delivery) or a
`startProcessor` interval tick `dt` milliseconds after the previous
trigger. -/
inductive Op where
  | enqueue (fm : FormattedMessage) (cm : ChatMessage) (fuel : Nat)
  | tick (fuel : Nat) (dt : Nat)

/-- Run one trigger. -/
def applyOp : Op → (Nat → SendResult) → Nat → SysState → LoopResult
  | .enqueue fm cm fuel, send, k, st => queueMessage fuel send k st fm cm
  | .tick fuel dt, send, k, st => processQueue fuel send k ⟨st.queue, st.store, st.now + dt⟩

/-- Run a sequence of triggers (the JS runtime executes them one at a
time; `processingQueue` single-flighting makes overlapping triggers
no-ops, so reachable behaviours are exactly these sequential runs). -/
def runOps : List Op → (Nat → SendResult) → Nat → SysState → LoopResult
  | [], _, k, st => ⟨st, [], k⟩
  | op :: ops, send, k, st =>
      let r := applyOp op send k st
      let r2 := runOps ops send r.calls r.state
      ⟨r2.state, r.events ++ r2.events, r2.calls⟩

/-! ### Drain-loop lemmas -/

theorem processQueue_nil (fuel : Nat) (send : Nat → SendResult) (k : Nat)
    (store : Store) (now : Nat) :
    processQueue fuel send k ⟨[], store, now⟩ = ⟨⟨[], store, now⟩, [], k⟩ := by
  cases fuel <;> simp [processQueue]

theorem processQueue_blocked (fuel : Nat) (send : Nat → SendResult) (k : Nat)
    (item : QueueItem) (rest : List QueueItem) (store : Store) (now : Nat)
    (hb : blockedHead item now = true) :
    processQueue fuel send k ⟨item :: rest, store, now⟩ =
      ⟨⟨item :: rest, store, now⟩, [], k⟩ := by
  cases fuel <;> simp [processQueue, hb]

theorem processQueue_success (fuel : Nat) (send : Nat → SendResult) (k : Nat)
    (item : QueueItem) (rest : List QueueItem) (store : Store) (now : Nat)
    (hb : blockedHead item now = false) (hs : send k = .ok) :
    processQueue (fuel + 1) send k ⟨item :: rest, store, now⟩ =
      (let r := processQueue fuel send (k + 1)
        ⟨rest, markAsSent store item.messageId item.conversationId
          (normType item.notificationType) now, now + RETRY_DELAY⟩
      ⟨r.state,
        .attempt item.messageId now item.retryCount ::
          .delivered item.messageId now :: r.events, r.calls⟩) := by
  simp [processQueue, hb, hs]

theorem processQueue_rateLimited (fuel : Nat) (send : Nat → SendResult) (k : Nat)
    (item : QueueItem) (rest : List QueueItem) (store : Store) (now : Nat)
    (e : String) (s : Nat)
    (hb : blockedHead item now = false) (hs : send k = .error e)
    (h429 : strIncludes e "ETELEGRAM: 429" = true)
    (hra : retryAfterSecs e = some s) :
    processQueue (fuel + 1) send k ⟨item :: rest, store, now⟩ =
      ⟨⟨{ item with retryAfter := some (now + s * 1000) } :: rest, store, now⟩,
        [.attempt item.messageId now item.retryCount], k + 1⟩ := by
  simp [processQueue, hb, hs, h429, hra]

theorem processQueue_rateLimited_noParse (fuel : Nat) (send : Nat → SendResult)
    (k : Nat) (item : QueueItem) (rest : List QueueItem) (store : Store) (now : Nat)
    (e : String)
    (hb : blockedHead item now = false) (hs : send k = .error e)
    (h429 : strIncludes e "ETELEGRAM: 429" = true)
    (hra : retryAfterSecs e = none) :
    processQueue (fuel + 1) send k ⟨item :: rest, store, now⟩ =
      (let r := processQueue fuel send (k + 1) ⟨item :: rest, store, now⟩
      ⟨r.state, .attempt item.messageId now item.retryCount :: r.events, r.calls⟩) := by
  simp [processQueue, hb, hs, h429, hra]

theorem processQueue_formatRejected (fuel : Nat) (send : Nat → SendResult)
    (k : Nat) (item : QueueItem) (rest : List QueueItem) (store : Store) (now : Nat)
    (e : String)
    (hb : blockedHead item now = false) (hs : send k = .error e)
    (h429 : strIncludes e "ETELEGRAM: 429" = false)
    (hpe : strIncludes e parseEntitiesPat = true) :
    processQueue (fuel + 1) send k ⟨item :: rest, store, now⟩ =
      (let r := processQueue fuel send (k + 1) ⟨rest, store, now⟩
      ⟨r.state,
        .attempt item.messageId now item.retryCount ::
          .droppedFormat item.messageId now :: r.events, r.calls⟩) := by
  simp [processQueue, hb, hs, h429, hpe]

theorem processQueue_retryExhausted (fuel : Nat) (send : Nat → SendResult)
    (k : Nat) (item : QueueItem) (rest : List QueueItem) (store : Store) (now : Nat)
    (e : String)
    (hb : blockedHead item now = false) (hs : send k = .error e)
    (h429 : strIncludes e "ETELEGRAM: 429" = false)
    (hpe : strIncludes e parseEntitiesPat = false)
    (hrc : MAX_RETRIES ≤ item.retryCount + 1) :
    processQueue (fuel + 1) send k ⟨item :: rest, store, now⟩ =
      (let r := processQueue fuel send (k + 1) ⟨rest, store, now⟩
      ⟨r.state,
        .attempt item.messageId now item.retryCount ::
          .droppedRetries item.messageId now :: r.events, r.calls⟩) := by
  simp [processQueue, hb, hs, h429, hpe, hrc]

theorem processQueue_transientRetry (fuel : Nat) (send : Nat → SendResult)
    (k : Nat) (item : QueueItem) (rest : List QueueItem) (store : Store) (now : Nat)
    (e : String)
    (hb : blockedHead item now = false) (hs : send k = .error e)
    (h429 : strIncludes e "ETELEGRAM: 429" = false)
    (hpe : strIncludes e parseEntitiesPat = false)
    (hrc : item.retryCount + 1 < MAX_RETRIES) :
    processQueue (fuel + 1) send k ⟨item :: rest, store, now⟩ =
      (let r := processQueue fuel send (k + 1)
        ⟨{ item with retryCount := item.retryCount + 1 } :: rest, store, now⟩
      ⟨r.state, .attempt item.messageId now item.retryCount :: r.events, r.calls⟩) := by
  have h : ¬ MAX_RETRIES ≤ item.retryCount + 1 := by omega
  simp [processQueue, hb, hs, h429, hpe, h]

/-- Whatever the send outcome, a drain step on an unblocked head begins
with a send attempt of exactly that head entry. -/
theorem processQueue_head_attempt (fuel : Nat) (send : Nat → SendResult) (k : Nat)
    (item : QueueItem) (rest : List QueueItem) (store : Store) (now : Nat)
    (hb : blockedHead item now = false) :
    (processQueue (fuel + 1) send k ⟨item :: rest, store, now⟩).events.head? =
      some (.attempt item.messageId now item.retryCount) := by
  cases hs : send k with
  | ok =>
      rw [processQueue_success fuel send k item rest store now hb hs]
      rfl
  | error e =>
      by_cases h429 : strIncludes e "ETELEGRAM: 429" = true
      · cases hra : retryAfterSecs e with
        | some s =>
            rw [processQueue_rateLimited fuel send k item rest store now e s hb hs h429 hra]
            rfl
        | none =>
            rw [processQueue_rateLimited_noParse fuel send k item rest store now e hb hs h429 hra]
            rfl
      · rw [Bool.not_eq_true] at h429
        by_cases hpe : strIncludes e parseEntitiesPat = true
        · rw [processQueue_formatRejected fuel send k item rest store now e hb hs h429 hpe]
          rfl
        · rw [Bool.not_eq_true] at hpe
          by_cases hrc : MAX_RETRIES ≤ item.retryCount + 1
          · rw [processQueue_retryExhausted fuel send k item rest store now e hb hs h429 hpe hrc]
            rfl
          · rw [processQueue_transientRetry fuel send k item rest store now e hb hs h429 hpe (by omega)]
            rfl

/-- Every row of the store after a drain either was there before the
drain or belongs to a message whose send completed successfully during
the drain (`markAsSent` runs only after `bot.sendMessage` returns). -/
theorem processQueue_store_mem (fuel : Nat) (send : Nat → SendResult) (k : Nat)
    (st : SysState) :
    ∀ r ∈ (processQueue fuel send k st).state.store,
      r ∈ st.store ∨
        ∃ tm, Event.delivered r.message_id tm ∈ (processQueue fuel send k st).events := by
  induction fuel generalizing k st with
  | zero => intro r hr; exact Or.inl hr
  | succ fuel ih =>
      obtain ⟨q, store, now⟩ := st
      cases q with
      | nil =>
          rw [processQueue_nil]
          intro r hr
          exact Or.inl hr
      | cons item rest =>
          by_cases hb : blockedHead item now = true
          · rw [processQueue_blocked _ _ _ _ _ _ _ hb]
            intro r hr
            exact Or.inl hr
          · rw [Bool.not_eq_true] at hb
            intro r hr
            cases hs : send k with
            | ok =>
                rw [processQueue_success _ _ _ _ _ _ _ hb hs] at hr ⊢
                dsimp only at hr ⊢
                rcases ih (k + 1) _ r hr with h | ⟨tm, htm⟩
                · rcases List.mem_append.mp h with h1 | h2
                  · exact Or.inl (List.mem_of_mem_filter h1)
                  · have : r = ⟨item.messageId, now, item.conversationId,
                        normType item.notificationType⟩ := by simpa using h2
                    subst this
                    exact Or.inr ⟨now, by simp⟩
                · exact Or.inr ⟨tm, by simp [htm]⟩
            | error e =>
                by_cases h429 : strIncludes e "ETELEGRAM: 429" = true
                · cases hra : retryAfterSecs e with
                  | some s =>
                      rw [processQueue_rateLimited _ _ _ _ _ _ _ _ _ hb hs h429 hra] at hr
                      exact Or.inl hr
                  | none =>
                      rw [processQueue_rateLimited_noParse _ _ _ _ _ _ _ _ hb hs h429 hra] at hr ⊢
                      dsimp only at hr ⊢
                      rcases ih (k + 1) _ r hr with h | ⟨tm, htm⟩
                      · exact Or.inl h
                      · exact Or.inr ⟨tm, by simp [htm]⟩
                · rw [Bool.not_eq_true] at h429
                  by_cases hpe : strIncludes e parseEntitiesPat = true
                  · rw [processQueue_formatRejected _ _ _ _ _ _ _ _ hb hs h429 hpe] at hr ⊢
                    dsimp only at hr ⊢
                    rcases ih (k + 1) _ r hr with h | ⟨tm, htm⟩
                    · exact Or.inl h
                    · exact Or.inr ⟨tm, by simp [htm]⟩
                  · rw [Bool.not_eq_true] at hpe
                    by_cases hrc : MAX_RETRIES ≤ item.retryCount + 1
                    · rw [processQueue_retryExhausted _ _ _ _ _ _ _ _ hb hs h429 hpe hrc] at hr ⊢
                      dsimp only at hr ⊢
                      rcases ih (k + 1) _ r hr with h | ⟨tm, htm⟩
                      · exact Or.inl h
                      · exact Or.inr ⟨tm, by simp [htm]⟩
                    · rw [processQueue_transientRetry _ _ _ _ _ _ _ _ hb hs h429 hpe
                        (by omega)] at hr ⊢
                      dsimp only at hr ⊢
                      rcases ih (k + 1) _ r hr with h | ⟨tm, htm⟩
                      · exact Or.inl h
                      · exact Or.inr ⟨tm, by simp [htm]⟩

/-- Event clocks never precede the clock at which a drain starts. -/
theorem processQueue_time_le (fuel : Nat) (send : Nat → SendResult) (k : Nat)
    (st : SysState) :
    ∀ ev ∈ (processQueue fuel send k st).events, st.now ≤ ev.time := by
  induction fuel generalizing k st with
  | zero => intro ev hev; simp [processQueue] at hev
  | succ fuel ih =>
      obtain ⟨q, store, now⟩ := st
      cases q with
      | nil =>
          rw [processQueue_nil]
          intro ev hev
          simp at hev
      | cons item rest =>
          by_cases hb : blockedHead item now = true
          · rw [processQueue_blocked _ _ _ _ _ _ _ hb]
            intro ev hev
            simp at hev
          · rw [Bool.not_eq_true] at hb
            intro ev hev
            cases hs : send k with
            | ok =>
                rw [processQueue_success _ _ _ _ _ _ _ hb hs] at hev
                dsimp only at hev
                simp only [List.mem_cons] at hev
                rcases hev with h | h | h
                · subst h; exact le_refl _
                · subst h; exact le_refl _
                · have := ih (k + 1) ⟨rest, markAsSent store item.messageId
                      item.conversationId (normType item.notificationType) now,
                      now + RETRY_DELAY⟩ ev h
                  dsimp only at this ⊢
                  omega
            | error e =>
                by_cases h429 : strIncludes e "ETELEGRAM: 429" = true
                · cases hra : retryAfterSecs e with
                  | some s =>
                      rw [processQueue_rateLimited _ _ _ _ _ _ _ _ _ hb hs h429 hra] at hev
                      simp at hev
                      subst hev; exact le_refl _
                  | none =>
                      rw [processQueue_rateLimited_noParse _ _ _ _ _ _ _ _ hb hs h429 hra] at hev
                      dsimp only at hev
                      simp only [List.mem_cons] at hev
                      rcases hev with h | h
                      · subst h; exact le_refl _
                      · exact ih (k + 1) ⟨item :: rest, store, now⟩ ev h
                · rw [Bool.not_eq_true] at h429
                  by_cases hpe : strIncludes e parseEntitiesPat = true
                  · rw [processQueue_formatRejected _ _ _ _ _ _ _ _ hb hs h429 hpe] at hev
                    dsimp only at hev
                    simp only [List.mem_cons] at hev
                    rcases hev with h | h | h
                    · subst h; exact le_refl _
                    · subst h; exact le_refl _
                    · exact ih (k + 1) ⟨rest, store, now⟩ ev h
                  · rw [Bool.not_eq_true] at hpe
                    by_cases hrc : MAX_RETRIES ≤ item.retryCount + 1
                    · rw [processQueue_retryExhausted _ _ _ _ _ _ _ _ hb hs h429 hpe hrc] at hev
                      dsimp only at hev
                      simp only [List.mem_cons] at hev
                      rcases hev with h | h | h
                      · subst h; exact le_refl _
                      · subst h; exact le_refl _
                      · exact ih (k + 1) ⟨rest, store, now⟩ ev h
                    · rw [processQueue_transientRetry _ _ _ _ _ _ _ _ hb hs h429 hpe
                        (by omega)] at hev
                      dsimp only at hev
                      simp only [List.mem_cons] at hev
                      rcases hev with h | h
                      · subst h; exact le_refl _
                      · exact ih (k + 1)
                          ⟨{ item with retryCount := item.retryCount + 1 } :: rest,
                            store, now⟩ ev h

/-- With a send oracle that always succeeds (from call index `k` on)
and no backoff timers, a drain with enough fuel attempts exactly the
queued messages, head first, in queue order, and empties the queue. -/
theorem processQueue_all_ok (send : Nat → SendResult) (q : List QueueItem) :
    ∀ (fuel k : Nat) (store : Store) (now : Nat),
      (∀ n, k ≤ n → send n = .ok) →
      (∀ it ∈ q, it.retryAfter = none) →
      q.length ≤ fuel →
      attemptsOf (processQueue fuel send k ⟨q, store, now⟩).events =
        q.map (fun it => it.messageId) ∧
      (processQueue fuel send k ⟨q, store, now⟩).state.queue = [] := by
  induction q with
  | nil =>
      intro fuel k store now _ _ _
      rw [processQueue_nil]
      simp [attemptsOf]
  | cons item rest ih =>
      intro fuel k store now hsend hq hlen
      cases fuel with
      | zero => simp at hlen
      | succ fuel =>
          have hra : item.retryAfter = none := hq item (List.mem_cons_self _ _)
          have hb : blockedHead item now = false := by simp [blockedHead, hra]
          rw [processQueue_success fuel send k item rest store now hb (hsend k (le_refl k))]
          dsimp only
          have hrest := ih fuel (k + 1) (markAsSent store item.messageId item.conversationId
              (normType item.notificationType) now) (now + RETRY_DELAY)
            (fun n hn => hsend n (by omega))
            (fun it hit => hq it (List.mem_cons_of_mem _ hit))
            (by simpa using Nat.le_of_succ_le_succ hlen)
          refine ⟨?_, hrest.2⟩
          simp [attemptsOf] at hrest ⊢
          exact hrest.1

/-- Running `queueMessage` on an already-delivered id is a silent no-op. -/
theorem queueMessage_skip (fuel : Nat) (send : Nat → SendResult) (k : Nat)
    (st : SysState) (fm : FormattedMessage) (cm : ChatMessage)
    (h : hasBeenSent st.store cm.id = true) :
    queueMessage fuel send k st fm cm = ⟨st, [], k⟩ := by
  simp [queueMessage, h]

/-- Running `queueMessage` on a fresh id pushes a new entry at the tail and drains. -/
theorem queueMessage_push (fuel : Nat) (send : Nat → SendResult) (k : Nat)
    (st : SysState) (fm : FormattedMessage) (cm : ChatMessage)
    (h : hasBeenSent st.store cm.id = false) :
    queueMessage fuel send k st fm cm =
      processQueue fuel send k
        ⟨st.queue ++ [mkQueueItem fm cm (extractNotificationType fm.text)],
          st.store, st.now⟩ := by
  simp [queueMessage, h]

/-- Store provenance lifted to a single trigger. -/
theorem applyOp_store_mem (op : Op) (send : Nat → SendResult) (k : Nat)
    (st : SysState) :
    ∀ r ∈ (applyOp op send k st).state.store,
      r ∈ st.store ∨
        ∃ tm, Event.delivered r.message_id tm ∈ (applyOp op send k st).events := by
  cases op with
  | enqueue fm cm fuel =>
      by_cases h : hasBeenSent st.store cm.id = true
      · rw [show applyOp (.enqueue fm cm fuel) send k st = queueMessage fuel send k st fm cm
          from rfl, queueMessage_skip fuel send k st fm cm h]
        intro r hr
        exact Or.inl hr
      · rw [Bool.not_eq_true] at h
        rw [show applyOp (.enqueue fm cm fuel) send k st = queueMessage fuel send k st fm cm
          from rfl, queueMessage_push fuel send k st fm cm h]
        intro r hr
        exact processQueue_store_mem fuel send k _ r hr
  | tick fuel dt =>
      intro r hr
      exact processQueue_store_mem fuel send k ⟨st.queue, st.store, st.now + dt⟩ r hr

/-- Store provenance lifted to a whole run. -/
theorem runOps_store_mem (ops : List Op) (send : Nat → SendResult) :
    ∀ (k : Nat) (st : SysState),
      ∀ r ∈ (runOps ops send k st).state.store,
        r ∈ st.store ∨
          ∃ tm, Event.delivered r.message_id tm ∈ (runOps ops send k st).events := by
  induction ops with
  | nil => intro k st r hr; exact Or.inl hr
  | cons op ops ih =>
      intro k st r hr
      simp only [runOps] at hr ⊢
      rcases ih (applyOp op send k st).calls (applyOp op send k st).state r hr with h | ⟨tm, htm⟩
      · rcases applyOp_store_mem op send k st r h with h2 | ⟨tm, htm⟩
        · exact Or.inl h2
        · exact Or.inr ⟨tm, List.mem_append.mpr (Or.inl htm)⟩
      · exact Or.inr ⟨tm, List.mem_append.mpr (Or.inr htm)⟩

/-- Claim C1: if the dedup store already has a record for the message id
at enqueue time, `queueMessage` is a silent no-op (state untouched, no
events, no send calls); and in the double-enqueue scenario — a fresh id
enqueued, delivered successfully, then enqueued again — the run makes
exactly one outbound send attempt in total, the second enqueue emitting
nothing. -/
theorem queueMessage_dedup_single_send :
    (∀ (fuel : Nat) (send : Nat → SendResult) (k : Nat) (st : SysState)
        (fm : FormattedMessage) (cm : ChatMessage),
        hasBeenSent st.store cm.id = true →
        queueMessage fuel send k st fm cm = ⟨st, [], k⟩) ∧
    (∀ (store : Store) (t0 : Nat) (send : Nat → SendResult)
        (fm : FormattedMessage) (cm : ChatMessage),
        (∀ n, send n = .ok) →
        hasBeenSent store cm.id = false →
        attemptsOf (queueMessage 2 send 0 ⟨[], store, t0⟩ fm cm).events = [cm.id] ∧
        queueMessage 2 send (queueMessage 2 send 0 ⟨[], store, t0⟩ fm cm).calls
            (queueMessage 2 send 0 ⟨[], store, t0⟩ fm cm).state fm cm =
          ⟨(queueMessage 2 send 0 ⟨[], store, t0⟩ fm cm).state, [],
            (queueMessage 2 send 0 ⟨[], store, t0⟩ fm cm).calls⟩) := by
  refine ⟨fun fuel send k st fm cm h => queueMessage_skip fuel send k st fm cm h, ?_⟩
  intro store t0 send fm cm hok hd
  have hq1 : queueMessage 2 send 0 ⟨[], store, t0⟩ fm cm =
      ⟨⟨[], markAsSent store cm.id cm.conversationId
          (normType (extractNotificationType fm.text)) t0, t0 + RETRY_DELAY⟩,
        [.attempt cm.id t0 0, .delivered cm.id t0], 1⟩ := by
    rw [queueMessage_push 2 send 0 ⟨[], store, t0⟩ fm cm hd]
    have hb : blockedHead (mkQueueItem fm cm (extractNotificationType fm.text)) t0 = false := rfl
    rw [show ([] : List QueueItem) ++ [mkQueueItem fm cm (extractNotificationType fm.text)] =
      [mkQueueItem fm cm (extractNotificationType fm.text)] from rfl]
    rw [processQueue_success 1 send 0 _ [] store t0 hb (hok 0)]
    rw [processQueue_nil]
    rfl
  constructor
  · rw [hq1]
    rfl
  · rw [hq1]
    exact queueMessage_skip 2 send 1 _ fm cm
      (hasBeenSent_markAsSent store cm.id cm.conversationId _ t0)

/-- Claim C2: a dedup record can only come into existence through a
successful send: any row of the store after a drain was either already
present or is covered by a `delivered` event of that drain, and in any
run from the initial state (empty store, empty queue) every row of the
final store corresponds to a successful outbound send in the run's
trace. -/
theorem store_record_implies_delivered :
    (∀ (fuel : Nat) (send : Nat → SendResult) (k : Nat) (st : SysState),
        ∀ r ∈ (processQueue fuel send k st).state.store,
          r ∈ st.store ∨
            ∃ tm, Event.delivered r.message_id tm ∈ (processQueue fuel send k st).events) ∧
    (∀ (ops : List Op) (send : Nat → SendResult) (t0 : Nat),
        ∀ r ∈ (runOps ops send 0 ⟨[], [], t0⟩).state.store,
          ∃ tm, Event.delivered r.message_id tm ∈ (runOps ops send 0 ⟨[], [], t0⟩).events) := by
  refine ⟨processQueue_store_mem, ?_⟩
  intro ops send t0 r hr
  rcases runOps_store_mem ops send 0 ⟨[], [], t0⟩ r hr with h | h
  · simp at h
  · exact h

/-- Claim C3: enqueue appends at the tail of the in-memory queue, and a
failure-free drain (send oracle returning success for every call) sends
exactly the queued messages in queue order — only the head is ever
attempted and each entry leaves the queue on completion, so the queue is
empty afterwards. -/
theorem queue_fifo_order :
    (∀ (fuel : Nat) (send : Nat → SendResult) (k : Nat) (st : SysState)
        (fm : FormattedMessage) (cm : ChatMessage),
        hasBeenSent st.store cm.id = false →
        queueMessage fuel send k st fm cm =
          processQueue fuel send k
            ⟨st.queue ++ [mkQueueItem fm cm (extractNotificationType fm.text)],
              st.store, st.now⟩) ∧
    (∀ (send : Nat → SendResult) (q : List QueueItem) (fuel k : Nat)
        (store : Store) (now : Nat),
        (∀ n, k ≤ n → send n = .ok) →
        (∀ it ∈ q, it.retryAfter = none) →
        q.length ≤ fuel →
        attemptsOf (processQueue fuel send k ⟨q, store, now⟩).events =
          q.map (fun it => it.messageId) ∧
        (processQueue fuel send k ⟨q, store, now⟩).state.queue = []) := by
  exact ⟨queueMessage_push, processQueue_all_ok⟩

/-- Claim C4: an entry whose sends fail with a transient error (neither
the 429 marker nor the parse-entities marker) on its first three
attempts is attempted exactly `MAX_RETRIES = 3` times — its
`retryCount` climbing 0, 1, 2 across failed attempts — then dropped,
after which the same drain proceeds to the entries behind it. -/
theorem transient_retry_ceiling (item : QueueItem) (rest : List QueueItem)
    (store : Store) (now : Nat) (e : String) (send : Nat → SendResult) (fuel : Nat)
    (hrc0 : item.retryCount = 0) (hra : item.retryAfter = none)
    (hrest : ∀ it ∈ rest, it.retryAfter = none)
    (herr : ∀ n, n < 3 → send n = .error e)
    (hok : ∀ n, 3 ≤ n → send n = .ok)
    (h429 : strIncludes e "ETELEGRAM: 429" = false)
    (hpe : strIncludes e parseEntitiesPat = false)
    (hlen : rest.length ≤ fuel) :
    MAX_RETRIES = 3 ∧
    (processQueue (fuel + 3) send 0 ⟨item :: rest, store, now⟩).events =
      .attempt item.messageId now 0 :: .attempt item.messageId now 1 ::
        .attempt item.messageId now 2 :: .droppedRetries item.messageId now ::
        (processQueue fuel send 3 ⟨rest, store, now⟩).events ∧
    attemptsOf (processQueue fuel send 3 ⟨rest, store, now⟩).events =
      rest.map (fun it => it.messageId) ∧
    (processQueue (fuel + 3) send 0 ⟨item :: rest, store, now⟩).state =
      (processQueue fuel send 3 ⟨rest, store, now⟩).state ∧
    (processQueue (fuel + 3) send 0 ⟨item :: rest, store, now⟩).state.queue = [] := by
  have hb : blockedHead item now = false := by simp [blockedHead, hra]
  have h1 : processQueue (fuel + 3) send 0 ⟨item :: rest, store, now⟩ =
      (let r := processQueue (fuel + 2) send 1
        ⟨{ item with retryCount := item.retryCount + 1 } :: rest, store, now⟩
      ⟨r.state, .attempt item.messageId now item.retryCount :: r.events, r.calls⟩) :=
    processQueue_transientRetry (fuel + 2) send 0 item rest store now e hb
      (herr 0 (by omega)) h429 hpe (by simp [hrc0, MAX_RETRIES])
  have hb1 : blockedHead { item with retryCount := item.retryCount + 1 } now = false := by
    simp [blockedHead, hra]
  have h2 : processQueue (fuel + 2) send 1
      ⟨{ item with retryCount := item.retryCount + 1 } :: rest, store, now⟩ =
      (let r := processQueue (fuel + 1) send 2
        ⟨{ item with retryCount := item.retryCount + 1 + 1 } :: rest, store, now⟩
      ⟨r.state, .attempt item.messageId now (item.retryCount + 1) :: r.events, r.calls⟩) :=
    processQueue_transientRetry (fuel + 1) send 1 _ rest store now e hb1
      (herr 1 (by omega)) h429 hpe (by simp [hrc0, MAX_RETRIES])
  have hb2 : blockedHead { item with retryCount := item.retryCount + 1 + 1 } now = false := by
    simp [blockedHead, hra]
  have h3 : processQueue (fuel + 1) send 2
      ⟨{ item with retryCount := item.retryCount + 1 + 1 } :: rest, store, now⟩ =
      (let r := processQueue fuel send 3 ⟨rest, store, now⟩
      ⟨r.state, .attempt item.messageId now (item.retryCount + 1 + 1) ::
        .droppedRetries item.messageId now :: r.events, r.calls⟩) :=
    processQueue_retryExhausted fuel send 2 _ rest store now e hb2
      (herr 2 (by omega)) h429 hpe (by simp [hrc0, MAX_RETRIES])
  have hall := processQueue_all_ok send rest fuel 3 store now hok hrest hlen
  refine ⟨rfl, ?_, hall.1, ?_, ?_⟩
  · rw [h1]
    dsimp only
    rw [h2]
    dsimp only
    rw [h3]
    dsimp only
    rw [hrc0]
  · rw [h1]
    dsimp only
    rw [h2]
    dsimp only
    rw [h3]
  · rw [h1]
    dsimp only
    rw [h2]
    dsimp only
    rw [h3]
    dsimp only
    exact hall.2

/-- Claim C5: a rate-limited response advertising `s` seconds sets
`retryAfter = now + s*1000` on the head entry without touching its
`retryCount` and without removing it, and stops the drain after that
single attempt; while the head's backoff deadline lies in the future no
drain performs any send attempt and the state is untouched; and any
drain run at or after the deadline attempts exactly that same head
entry first. -/
theorem rate_limit_backoff :
    (∀ (fuel : Nat) (send : Nat → SendResult) (k : Nat) (item : QueueItem)
        (rest : List QueueItem) (store : Store) (now : Nat) (e : String) (s : Nat),
        blockedHead item now = false → send k = .error e →
        strIncludes e "ETELEGRAM: 429" = true → retryAfterSecs e = some s →
        processQueue (fuel + 1) send k ⟨item :: rest, store, now⟩ =
          ⟨⟨{ item with retryAfter := some (now + s * 1000) } :: rest, store, now⟩,
            [.attempt item.messageId now item.retryCount], k + 1⟩) ∧
    (∀ (fuel : Nat) (send : Nat → SendResult) (k : Nat) (item : QueueItem)
        (rest : List QueueItem) (store : Store) (now d : Nat),
        item.retryAfter = some d → now < d →
        processQueue fuel send k ⟨item :: rest, store, now⟩ =
          ⟨⟨item :: rest, store, now⟩, [], k⟩) ∧
    (∀ (fuel : Nat) (send : Nat → SendResult) (k : Nat) (item : QueueItem)
        (rest : List QueueItem) (store : Store) (now d : Nat),
        item.retryAfter = some d → d ≤ now →
        (processQueue (fuel + 1) send k ⟨item :: rest, store, now⟩).events.head? =
          some (.attempt item.messageId now item.retryCount)) := by
  refine ⟨fun fuel send k item rest store now e s hb hs h429 hra =>
      processQueue_rateLimited fuel send k item rest store now e s hb hs h429 hra,
    ?_, ?_⟩
  · intro fuel send k item rest store now d h1 h2
    exact processQueue_blocked fuel send k item rest store now (by simp [blockedHead, h1, h2])
  · intro fuel send k item rest store now d h1 h2
    refine processQueue_head_attempt fuel send k item rest store now ?_
    simp [blockedHead, h1]
    omega

/-- The concrete rate-limit error with no parsable `retry after`
duration (the C6 failing input). -/
def e429NoRetryAfter : String := "ETELEGRAM: 429 Too Many Requests"

/-- A queue entry used in concrete scenarios. -/
def itemW : QueueItem :=
  { message := ⟨"some rendered text", none⟩
    messageId := "msg-429"
    conversationId := none
    retryCount := 0
    retryAfter := none
    notificationType := "NEW_MESSAGE" }

/-- A send oracle that always rate-limits without a parsable duration. -/
def send429 : Nat → SendResult := fun _ => .error e429NoRetryAfter

/-- Claim C6 (code bug): a `too many requests` error without a parsable
`retry after` duration is *not* downgraded to a transient failure: the
handler matches the 429 branch, fails to parse a duration, changes
nothing, and the loop immediately re-attempts the same head — here ten
consecutive attempts (far beyond `MAX_RETRIES = 3`) all carrying
`retryCount = 0`, with the entry still queued and the state unchanged
afterwards. -/
theorem rate_limit_unparsable_busy_loop :
    strIncludes e429NoRetryAfter "ETELEGRAM: 429" = true ∧
    retryAfterSecs e429NoRetryAfter = none ∧
    MAX_RETRIES = 3 ∧
    processQueue 10 send429 0 ⟨[itemW], [], 0⟩ =
      ⟨⟨[itemW], [], 0⟩, List.replicate 10 (.attempt "msg-429" 0 0), 10⟩ := by
  refine ⟨by decide, by decide, rfl, by decide⟩

/-- A send oracle failing transiently on the first call, succeeding
afterwards. -/
def sendTransientOnce : Nat → SendResult :=
  fun n => if n < 1 then .error "ECONNRESET" else .ok

/-- A queue entry for the C7 counterexample. -/
def itemT : QueueItem :=
  { message := ⟨"another rendered text", none⟩
    messageId := "msg-t"
    conversationId := none
    retryCount := 0
    retryAfter := none
    notificationType := "NEW_MESSAGE" }

/-- Claim C7 counterexample: after a transient failure that leaves the
entry at the head (retryCount 1 < MAX_RETRIES), the next send attempt
of that entry happens at the very same clock value — the drain inserts
no delay at all between the failed attempt and the retry, although
`RETRY_DELAY = 1000`. -/
theorem transient_retry_no_delay_cex :
    RETRY_DELAY = 1000 ∧
    (processQueue 3 sendTransientOnce 0 ⟨[itemT], [], 0⟩).events =
      [.attempt "msg-t" 0 0, .attempt "msg-t" 0 1, .delivered "msg-t" 0] ∧
    (processQueue 3 sendTransientOnce 0 ⟨[itemT], [], 0⟩).events.map Event.time =
      [0, 0, 0] := by
  refine ⟨rfl, by decide, by decide⟩

/-- Claim C7 (amended): the fixed inter-message delay is inserted only
after *successful* sends — every event after the two emitted by a
successful head attempt carries a clock at least `RETRY_DELAY` later —
whereas a transient failure that leaves the entry at the head is
re-attempted immediately: the failed attempt and the retry of the same
entry are the first two trace events and carry the same clock value. -/
theorem retry_spacing_amended :
    (∀ (fuel : Nat) (send : Nat → SendResult) (k : Nat) (item : QueueItem)
        (rest : List QueueItem) (store : Store) (now : Nat),
        blockedHead item now = false → send k = .ok →
        ∀ ev ∈ (processQueue (fuel + 1) send k ⟨item :: rest, store, now⟩).events.drop 2,
          now + RETRY_DELAY ≤ ev.time) ∧
    (∀ (fuel : Nat) (send : Nat → SendResult) (k : Nat) (item : QueueItem)
        (rest : List QueueItem) (store : Store) (now : Nat) (e : String),
        item.retryAfter = none → send k = .error e →
        strIncludes e "ETELEGRAM: 429" = false →
        strIncludes e parseEntitiesPat = false →
        item.retryCount + 1 < MAX_RETRIES →
        (processQueue (fuel + 2) send k ⟨item :: rest, store, now⟩).events.take 2 =
          [.attempt item.messageId now item.retryCount,
            .attempt item.messageId now (item.retryCount + 1)]) := by
  constructor
  · intro fuel send k item rest store now hb hs ev hev
    rw [processQueue_success fuel send k item rest store now hb hs] at hev
    dsimp only at hev
    rw [List.drop_succ_cons, List.drop_succ_cons, List.drop_zero] at hev
    have := processQueue_time_le fuel send (k + 1)
      ⟨rest, markAsSent store item.messageId item.conversationId
        (normType item.notificationType) now, now + RETRY_DELAY⟩ ev hev
    exact this
  · intro fuel send k item rest store now e hra hs h429 hpe hrc
    have hb : blockedHead item now = false := by simp [blockedHead, hra]
    rw [processQueue_transientRetry (fuel + 1) send k item rest store now e hb hs h429 hpe hrc]
    dsimp only
    have hb1 : blockedHead { item with retryCount := item.retryCount + 1 } now = false := by
      simp [blockedHead, hra]
    have hh := processQueue_head_attempt fuel send (k + 1)
      { item with retryCount := item.retryCount + 1 } rest store now hb1
    cases hev2 : (processQueue (fuel + 1) send (k + 1)
        ⟨{ item with retryCount := item.retryCount + 1 } :: rest, store, now⟩).events with
    | nil =>
        rw [hev2] at hh
        simp at hh
    | cons a l =>
        rw [hev2] at hh
        simp only [List.head?_cons, Option.some_inj] at hh
        rw [hh]
        rfl

/-! ### Concrete scenarios used by the witnesses -/

/-- A send oracle that always succeeds. -/
def sendOk : Nat → SendResult := fun _ => .ok

/-- A rendered message for concrete scenarios. -/
def fmW : FormattedMessage := ⟨"hello", none⟩

/-- A canonical chat message for concrete scenarios. -/
def cmW : ChatMessage :=
  ⟨"m1", "Bob", none, none, UserType.user, "hi", "2025-01-01", some "c7"⟩

/-- The dedup row written for `cmW` by a successful send at clock 0. -/
def recW : DedupRecord := ⟨"m1", 0, some "c7", "SYSTEM"⟩

theorem queueMessage_dedup_single_send_witness :
    queueMessage 1 sendOk 0 ⟨[], [recW], 5⟩ fmW cmW = ⟨⟨[], [recW], 5⟩, [], 0⟩ ∧
    hasBeenSent ([] : Store) cmW.id = false ∧
    attemptsOf (queueMessage 2 sendOk 0 ⟨[], [], 0⟩ fmW cmW).events = [cmW.id] ∧
    queueMessage 2 sendOk (queueMessage 2 sendOk 0 ⟨[], [], 0⟩ fmW cmW).calls
        (queueMessage 2 sendOk 0 ⟨[], [], 0⟩ fmW cmW).state fmW cmW =
      ⟨(queueMessage 2 sendOk 0 ⟨[], [], 0⟩ fmW cmW).state, [],
        (queueMessage 2 sendOk 0 ⟨[], [], 0⟩ fmW cmW).calls⟩ := by
  refine ⟨queueMessage_dedup_single_send.1 1 sendOk 0 ⟨[], [recW], 5⟩ fmW cmW (by decide),
    by decide, ?_⟩
  exact queueMessage_dedup_single_send.2 [] 0 sendOk fmW cmW (fun _ => rfl) (by decide)

/-- The run enqueueing `cmW` once. -/
def opsW : List Op := [Op.enqueue fmW cmW 2]

theorem store_record_implies_delivered_witness :
    recW ∈ (runOps opsW sendOk 0 ⟨[], [], 0⟩).state.store ∧
    ∃ tm, Event.delivered recW.message_id tm ∈ (runOps opsW sendOk 0 ⟨[], [], 0⟩).events := by
  refine ⟨by decide, ?_⟩
  exact store_record_implies_delivered.2 opsW sendOk 0 recW (by decide)

/-- Three queue entries for the FIFO scenario. -/
def item3a : QueueItem := ⟨⟨"a", none⟩, "m1", none, 0, none, "NEW_MESSAGE"⟩

def item3b : QueueItem := ⟨⟨"b", none⟩, "m2", none, 0, none, "NEW_MESSAGE"⟩

def item3c : QueueItem := ⟨⟨"c", none⟩, "m3", none, 0, none, "NEW_MESSAGE"⟩

theorem queue_fifo_order_witness :
    attemptsOf (processQueue 3 sendOk 0 ⟨[item3a, item3b, item3c], [], 0⟩).events =
      ["m1", "m2", "m3"] ∧
    (processQueue 3 sendOk 0 ⟨[item3a, item3b, item3c], [], 0⟩).state.queue = [] := by
  exact queue_fifo_order.2 sendOk [item3a, item3b, item3c] 3 0 [] 0
    (fun _ _ => rfl) (by decide) (by decide)

/-- A send oracle failing transiently on the first three calls. -/
def sendThreeFails : Nat → SendResult :=
  fun n => if n < 3 then .error "ECONNRESET" else .ok

/-- The head entry of the retry-ceiling scenario. -/
def item4 : QueueItem := ⟨⟨"x", none⟩, "m0", none, 0, none, "NEW_MESSAGE"⟩

theorem transient_retry_ceiling_witness :
    MAX_RETRIES = 3 ∧
    (processQueue 4 sendThreeFails 0 ⟨[item4, item3b], [], 0⟩).events =
      .attempt "m0" 0 0 :: .attempt "m0" 0 1 :: .attempt "m0" 0 2 ::
        .droppedRetries "m0" 0 ::
        (processQueue 1 sendThreeFails 3 ⟨[item3b], [], 0⟩).events ∧
    attemptsOf (processQueue 1 sendThreeFails 3 ⟨[item3b], [], 0⟩).events = ["m2"] ∧
    (processQueue 4 sendThreeFails 0 ⟨[item4, item3b], [], 0⟩).state =
      (processQueue 1 sendThreeFails 3 ⟨[item3b], [], 0⟩).state ∧
    (processQueue 4 sendThreeFails 0 ⟨[item4, item3b], [], 0⟩).state.queue = [] := by
  exact transient_retry_ceiling item4 [item3b] [] 0 "ECONNRESET" sendThreeFails 1
    rfl rfl (by decide)
    (fun n hn => by simp only [sendThreeFails]; exact if_pos hn)
    (fun n hn => by simp only [sendThreeFails]; exact if_neg (by omega))
    (by decide) (by decide) (by decide)

/-- A rate-limit error advertising a five-second wait. -/
def e429With5 : String := "ETELEGRAM: 429 Too Many Requests: retry after 5"

/-- A send oracle that always answers with `e429With5`. -/
def send429With5 : Nat → SendResult := fun _ => .error e429With5

/-- The head entry of the rate-limit scenario, unblocked and blocked. -/
def item5 : QueueItem := ⟨⟨"y", none⟩, "m5", none, 0, none, "NEW_MESSAGE"⟩

def item5b : QueueItem := ⟨⟨"y", none⟩, "m5", none, 0, some 7000, "NEW_MESSAGE"⟩

theorem rate_limit_backoff_witness :
    processQueue 1 send429With5 0 ⟨[item5], [], 2000⟩ =
      ⟨⟨[{ item5 with retryAfter := some (2000 + 5 * 1000) }], [], 2000⟩,
        [.attempt "m5" 2000 0], 1⟩ ∧
    processQueue 9 send429With5 0 ⟨[item5b], [], 3000⟩ =
      ⟨⟨[item5b], [], 3000⟩, [], 0⟩ ∧
    (processQueue 1 send429With5 0 ⟨[item5b], [], 7000⟩).events.head? =
      some (.attempt "m5" 7000 0) := by
  refine ⟨rate_limit_backoff.1 0 send429With5 0 item5 [] [] 2000 e429With5 5
      rfl rfl (by decide) (by decide),
    rate_limit_backoff.2.1 9 send429With5 0 item5b [] [] 3000 7000 rfl (by decide),
    rate_limit_backoff.2.2 0 send429With5 0 item5b [] [] 7000 7000 rfl (by decide)⟩

theorem retry_spacing_amended_witness :
    (0 + RETRY_DELAY ≤ Event.time (Event.attempt "m2" 1000 0)) ∧
    (processQueue 3 sendTransientOnce 0 ⟨[itemT], [], 0⟩).events.take 2 =
      [.attempt "msg-t" 0 0, .attempt "msg-t" 0 1] := by
  refine ⟨retry_spacing_amended.1 1 sendOk 0 item3a [item3b] [] 0 rfl rfl
      (Event.attempt "m2" 1000 0) (by decide), ?_⟩
  exact retry_spacing_amended.2 1 sendTransientOnce 0 itemT [] [] 0 "ECONNRESET"
    rfl (by decide) (by decide) (by decide) (by decide)

/-! ### Event normalization (src/webhook/directWebhookServer.ts,
src/intercom/intercomClient.ts) -/

/-- An Intercom author object (union of the fields the two interfaces
declare; absent JS fields are `none`). -/
structure IntercomAuthor where
  type : String
  id : String
  name : Option String
  email : Option String
  user_id : Option String
  external_id : Option String
deriving DecidableEq, Repr

/-- A conversation part / conversation message object. -/
structure ConversationPart where
  type : String
  id : String
  body : String
  author : IntercomAuthor
deriving DecidableEq, Repr

/-- The initial (`source`) message of a conversation. -/
structure SourceMsg where
  body : String
  author : IntercomAuthor
deriving DecidableEq, Repr

/-- Embedding of `event.data.item` of a raw Intercom webhook. -/
structure WebhookItem where
  type : String
  id : String
  conversation_id : Option String
  source : Option SourceMsg
  conversation_parts : Option (List ConversationPart)
deriving DecidableEq, Repr

/-- A raw Intercom webhook event as received by `DirectWebhookServer`. -/
structure IntercomWebhookEvent where
  type : String
  topic : String
  item : WebhookItem
deriving DecidableEq, Repr

/-- The event shape consumed by `IntercomClient.processWebhookEvent`
(its `conversation_message` and `conversation_id` are optional). -/
structure ClientEvent where
  type : String
  topic : String
  item_type : String
  item_id : String
  conversation_id : Option String
  conversation_message : Option ConversationPart
deriving DecidableEq, Repr

/-- The canonical message emitted on `new_message`
(`IntercomMessage`); `conversationId` is `metadata.conversationId`. -/
structure IntercomMessage where
  id : String
  name : String
  userId : Option String
  email : Option String
  type : String
  message : String
  timestamp : String
  conversationId : String
deriving DecidableEq, Repr

/-- JS truthiness of an optional string (`undefined` and `''` are falsy). -/
def isTruthy (a : Option String) : Bool :=
  match a with
  | some s => s != ""
  | none => false

/-- JS `a || b` on an optional string against a string default. -/
def orElseStr (a : Option String) (b : String) : String :=
  match a with
  | some s => if s == "" then b else s
  | none => b

/-- JS `a || undefined` on an optional string. -/
def orUndef (a : Option String) : Option String :=
  match a with
  | some s => if s == "" then none else some s
  | none => none

/-- The event-building core of `DirectWebhookServer.handleWebhook`: for
`conversation.user.created` events with a `source`, synthesize a
conversation message whose id is the *item* id; otherwise take the
first conversation part verbatim; emit nothing else.  The constructed
object carries no `conversation_id` field. -/
def handleWebhook (event : IntercomWebhookEvent) : Option ClientEvent :=
  if event.type == "notification_event" then
    let latestMessage := event.item.conversation_parts.bind List.head?
    match event.item.source, event.topic == "conversation.user.created" with
    | some src, true =>
        some { type := event.type
               topic := event.topic
               item_type := event.item.type
               item_id := event.item.id
               conversation_id := none
               conversation_message := some
                 ⟨"conversation", event.item.id, src.body, src.author⟩ }
    | _, _ =>
        match latestMessage with
        | some m =>
            some { type := event.type
                   topic := event.topic
                   item_type := event.item.type
                   item_id := event.item.id
                   conversation_id := none
                   conversation_message := some ⟨m.type, m.id, m.body, m.author⟩ }
        | none => none
  else none

/-- JS `Array.prototype.join(' ')`. -/
def joinWithSpace : List String → String
  | [] => ""
  | [s] => s
  | s :: rest => s ++ " " ++ joinWithSpace rest

/-- Embedding of `IntercomClient.formatUserName`. -/
def formatUserName (author : IntercomAuthor) : String :=
  let parts : List String :=
    (if isTruthy author.name then [author.name.getD ""] else []) ++
    (if !isTruthy author.name || author.type == "lead" then
      ["Anonymous " ++ author.type ++ " (" ++
        orElseStr author.user_id (orElseStr author.external_id author.id) ++ ")"]
     else []) ++
    (if isTruthy author.email then ["<" ++ author.email.getD "" ++ ">"] else [])
  joinWithSpace parts

/-- Embedding of `IntercomClient.stripHtml`. -/
def stripHtml (html : String) : String :=
  String.mk (stripTagsFuel html.data.length html.data)

/-- Embedding of `IntercomClient.processWebhookEvent` (the part that builds the
canonical message; `nowIso` abstracts `new Date().toISOString()`).
Returns `none` when the event carries no conversation message. -/
def processWebhookEvent (nowIso : String) (event : ClientEvent) :
    Option IntercomMessage :=
  match event.conversation_message with
  | none => none
  | some cm =>
      some { id := cm.id
             name := formatUserName cm.author
             userId := some (orElseStr cm.author.user_id cm.author.id)
             email := orUndef cm.author.email
             type := cm.author.type
             message := stripHtml cm.body
             timestamp := nowIso
             conversationId := orElseStr event.conversation_id event.item_id }

/-- The normalization pipeline: webhook server then Intercom client. -/
def normalizePipeline (nowIso : String) (event : IntercomWebhookEvent) :
    Option IntercomMessage :=
  (handleWebhook event).bind (processWebhookEvent nowIso)

/-- The author of the C9 concrete events. -/
def authorLead : IntercomAuthor := ⟨"lead", "a1", some "Ann", none, none, none⟩

/-- A `conversation.user.created` event whose conversation item id is
`conv-123`. -/
def evCreated : IntercomWebhookEvent :=
  ⟨"notification_event", "conversation.user.created",
    ⟨"conversation", "conv-123", none, some ⟨"Hello there", authorLead⟩, none⟩⟩

/-- Claim C9 counterexample: for a conversation-created event the
canonical message id is *not* a message-level id: it is exactly the
conversation item id, and coincides with the recorded conversation id
of the canonical message. -/
theorem canonical_id_is_conversation_id_cex :
    (normalizePipeline "t0" evCreated).map (fun m => (m.id, m.conversationId)) =
      some ("conv-123", "conv-123") := by
  decide

/-- Claim C9 (amended): for conversation-part events the canonical id
is the part's own message-level id; for conversation-created events the
pipeline falls back to the conversation item id, which then also serves
as the canonical message's conversation id. -/
theorem canonical_id_by_event_kind :
    (∀ (ev : IntercomWebhookEvent) (m : ConversationPart)
        (ms : List ConversationPart) (nowIso : String),
        ev.type = "notification_event" →
        (ev.item.source = none ∨ ev.topic ≠ "conversation.user.created") →
        ev.item.conversation_parts = some (m :: ms) →
        (normalizePipeline nowIso ev).map (fun msg => msg.id) = some m.id) ∧
    (∀ (ev : IntercomWebhookEvent) (src : SourceMsg) (nowIso : String),
        ev.type = "notification_event" →
        ev.item.source = some src →
        ev.topic = "conversation.user.created" →
        (normalizePipeline nowIso ev).map (fun msg => (msg.id, msg.conversationId)) =
          some (ev.item.id, ev.item.id)) := by
  constructor
  · intro ev m ms nowIso h1 h2 h3
    have htype : (ev.type == "notification_event") = true := by
      rw [h1]; exact beq_self_eq_true _
    rcases h2 with hs | ht
    · simp [normalizePipeline, handleWebhook, htype, hs, h3, processWebhookEvent]
    · have htop : (ev.topic == "conversation.user.created") = false := by
        simpa using ht
      cases hsrc : ev.item.source with
      | none => simp [normalizePipeline, handleWebhook, htype, hsrc, htop, h3,
          processWebhookEvent]
      | some src => simp [normalizePipeline, handleWebhook, htype, hsrc, htop, h3,
          processWebhookEvent]
  · intro ev src nowIso h1 h2 h3
    have htype : (ev.type == "notification_event") = true := by
      rw [h1]; exact beq_self_eq_true _
    have htop : (ev.topic == "conversation.user.created") = true := by
      rw [h3]; exact beq_self_eq_true _
    simp [normalizePipeline, handleWebhook, htype, h2, htop, processWebhookEvent,
      orElseStr]

/-- A conversation-part (admin reply) event in conversation `conv-123`
whose part id is `part-9`. -/
def evPart : IntercomWebhookEvent :=
  ⟨"notification_event", "conversation.admin.replied",
    ⟨"conversation", "conv-123", none, none,
      some [⟨"conversation_part", "part-9", "reply text", authorLead⟩]⟩⟩

theorem canonical_id_by_event_kind_witness :
    (normalizePipeline "t0" evPart).map (fun msg => msg.id) = some "part-9" ∧
    (normalizePipeline "t0" evCreated).map (fun msg => (msg.id, msg.conversationId)) =
      some (evCreated.item.id, evCreated.item.id) := by
  refine ⟨canonical_id_by_event_kind.1 evPart
      ⟨"conversation_part", "part-9", "reply text", authorLead⟩ [] "t0"
      rfl (Or.inr (by decide)) rfl, ?_⟩
  exact canonical_id_by_event_kind.2 evCreated ⟨"Hello there", authorLead⟩ "t0"
    rfl rfl rfl

/-! ### Classification round trip -/

theorem extractScan_header_NC (tail : List Char) :
    extractScan ("🟣 🆕 *NEW CONVERSATION*".data ++ tail) = some "NEW_CONVERSATION" := rfl

theorem extractScan_header_NM (tail : List Char) :
    extractScan ("🔵 💬 *NEW MESSAGE*".data ++ tail) = some "NEW_MESSAGE" := rfl

theorem extractScan_header_SY (tail : List Char) :
    extractScan ("🔵 🤖 *SYSTEM*".data ++ tail) = some "SYSTEM" := rfl

/-- The extraction regex always finds the header `formatMessage`
renders, whatever the chat content and timestamp rendering. -/
theorem extract_formatMessage (fmtTs : String → FormattedTimestamp)
    (chat : ChatMessage) (t : NotificationType) :
    extractNotificationType (formatMessage fmtTs chat t).text = t.toStr := by
  cases t with
  | NEW_CONVERSATION =>
      obtain ⟨tail, htail⟩ : ∃ tail,
          (formatMessage fmtTs chat NotificationType.NEW_CONVERSATION).text.data =
            "🟣 🆕 *NEW CONVERSATION*".data ++ tail := ⟨_, rfl⟩
      unfold extractNotificationType
      rw [htail, extractScan_header_NC]
      rfl
  | NEW_MESSAGE =>
      obtain ⟨tail, htail⟩ : ∃ tail,
          (formatMessage fmtTs chat NotificationType.NEW_MESSAGE).text.data =
            "🔵 💬 *NEW MESSAGE*".data ++ tail := ⟨_, rfl⟩
      unfold extractNotificationType
      rw [htail, extractScan_header_NM]
      rfl
  | SYSTEM =>
      obtain ⟨tail, htail⟩ : ∃ tail,
          (formatMessage fmtTs chat NotificationType.SYSTEM).text.data =
            "🔵 🤖 *SYSTEM*".data ++ tail := ⟨_, rfl⟩
      unfold extractNotificationType
      rw [htail, extractScan_header_SY]
      rfl

/-- Claim C10: classification round trip.  For every chat message,
every timestamp rendering and every notification type `t`,
`extractNotificationType` applied to the text produced by
`formatMessage` returns exactly `t`'s enum value — never `UNKNOWN` —
so the classification the queue records at enqueue time from the
rendered text equals `determineNotificationType` of the author's user
type. -/
theorem formatMessage_extract_roundtrip :
    (∀ (fmtTs : String → FormattedTimestamp) (chat : ChatMessage)
        (t : NotificationType),
        extractNotificationType (formatMessage fmtTs chat t).text = t.toStr) ∧
    (∀ t : NotificationType, t.toStr ≠ "UNKNOWN") ∧
    (∀ (fmtTs : String → FormattedTimestamp) (chat : ChatMessage),
        extractNotificationType
            (formatMessage fmtTs chat (determineNotificationType chat.type)).text =
          (determineNotificationType chat.type).toStr) := by
  refine ⟨extract_formatMessage, ?_, fun fmtTs chat => extract_formatMessage fmtTs chat _⟩
  intro t
  cases t <;> decide
